import Mathlib

/-!
Verification development for the reth ExEx notification stream
(`crates/exex/exex/src/notifications.rs`) and the placeholder bodies
downloader (`crates/net/downloaders/src/bodies/noop.rs`).

The head-aware stream `ExExNotificationsWithHead` is embedded as a pure
step function `poll_next` on an explicit `StreamState`, with the external
collaborators (provider, WAL, backfill producer) given as an explicit
`Env` of functions and the live channel as the list of its remaining
items.  One call to `poll_next` models one `Poll::Ready` outcome of one
pull of the Rust stream.
-/

/-- Block hashes are modelled as natural numbers. -/
abbrev Hash := Nat

/-- Modelled from the spec (section 3, BlockPosition): the data carried by a
sealed block that the stream inspects: its number, hash and parent hash.
The full sealed-block type lives outside the embedded sources. -/
structure Block where
  number : Nat
  hash : Hash
  parent_hash : Hash
deriving DecidableEq

/-- A block position: number plus hash (alloy `BlockNumHash`). -/
structure BlockNumHash where
  number : Nat
  hash : Hash
deriving DecidableEq

/-- The position of a block, as recorded for the consumer head. -/
def Block.num_hash (b : Block) : BlockNumHash := ⟨b.number, b.hash⟩

/-- Modelled from the spec (section 3, ChainSegment): an ordered non-empty
sequence of blocks, kept non-empty by construction as a head block plus a
tail.  The `Chain` type itself lives outside the embedded sources. -/
structure Chain where
  first : Block
  rest : List Block
deriving DecidableEq

/-- All blocks of the segment in order. -/
def Chain.blocks (c : Chain) : List Block := c.first :: c.rest

/-- The tip (last, highest) block of the segment. -/
def Chain.tip (c : Chain) : Block := c.rest.getLastD c.first

/-- Modelled from the spec (section 3, Transition): a committed or reverted
chain segment.  `ExExNotification` itself lives outside the embedded
sources; the spec describes it as the tagged union
`Committed(segment) | Reverted(segment)`. -/
inductive ExExNotification where
  | chainCommitted (new : Chain)
  | chainReverted (old : Chain)
deriving DecidableEq

/-- Modelled from the spec (section 4.1): the fallible accessor returning
the committed segment only for the matching tag. -/
def ExExNotification.committed_chain : ExExNotification → Option Chain
  | .chainCommitted new => some new
  | .chainReverted _ => none

/-- Modelled from the spec (section 4.1): the fallible accessor returning
the reverted segment only for the matching tag. -/
def ExExNotification.reverted_chain : ExExNotification → Option Chain
  | .chainCommitted _ => none
  | .chainReverted old => some old

/-- Modelled from the spec (section 3): `invert` swaps the tag and keeps
the segment. -/
def ExExNotification.into_inverted : ExExNotification → ExExNotification
  | .chainCommitted new => .chainReverted new
  | .chainReverted old => .chainCommitted old

/-- The errors a pull can surface, following the spec's section 7 taxonomy:
collaborator failures are propagated verbatim (carried here as a code),
and the two fatal stream errors are distinguished constructors. -/
inductive StreamError where
  | providerFailure (code : Nat)
  | logFailure (code : Nat)
  | untraceableHead (hash : Hash)
  | exexAheadOfNode
  | backfillFailure (code : Nat)
deriving DecidableEq

/-- The node head snapshot (`reth_chainspec::Head`); only the number and
hash are read by the stream, the auxiliary metadata is dropped. -/
structure Head where
  number : Nat
  hash : Hash
deriving DecidableEq

/-- The consumer head (`ExExHead`): the last-acknowledged block position. -/
structure ExExHead where
  block : BlockNumHash
deriving DecidableEq

/-- The external collaborators of `ExExNotificationsWithHead`, as pure
functions: the provider's `is_known`, the WAL handle's
`get_committed_notification_by_block_hash`, and the backfill job factory
producing the lazy item sequence for an inclusive number range. -/
structure Env where
  is_known : Hash → Except StreamError Bool
  wal_get : Hash → Except StreamError (Option ExExNotification)
  backfill : Nat → Nat → List (Except StreamError Chain)

/-- The mutable state of `ExExNotificationsWithHead`: node head snapshot,
consumer head, the two phase flags, the optional backfill job (its
remaining item sequence), and the remaining items of the live channel
(the empty list models a closed channel). -/
structure StreamState where
  node_head : Head
  exex_head : ExExHead
  pending_check_canonical : Bool
  pending_check_backfill : Bool
  backfill_job : Option (List (Except StreamError Chain))
  notifications : List ExExNotification

/-- The outcome of one pull: an item, an error item, end of stream, or a
panic (the `unwrap` in `check_canonical` on a non-commit WAL entry). -/
inductive PullResult where
  | out (n : ExExNotification)
  | err (e : StreamError)
  | ended
  | panicked
deriving DecidableEq

/-- The four outcomes of `ExExNotificationsWithHead::check_canonical`:
the head is canonical (`Ok(None)`), or a corrective inverted notification
is produced together with the corrected head (`Ok(Some(_))` plus the
mutation of `exex_head`), or an error is returned, or the `unwrap` on
`committed_chain()` panics. -/
inductive CanonicalCheck where
  | canonical
  | corrected (inverted : ExExNotification) (new_head : BlockNumHash)
  | failed (e : StreamError)
  | panicked

/-- `ExExNotificationsWithHead::check_canonical`: the head is canonical if
the provider knows its hash and its number is at most the node head's
number; otherwise the WAL is consulted: no entry is fatal, an entry yields
its inversion and moves the head to the parent of the first committed
block.  `committed_chain().unwrap()` is modelled by the `panicked`
outcome on a non-commit entry. -/
def check_canonical (env : Env) (s : StreamState) : CanonicalCheck :=
  match env.is_known s.exex_head.block.hash with
  | .error e => .failed e
  | .ok known =>
    if known && decide (s.exex_head.block.number ≤ s.node_head.number) then
      .canonical
    else
      match env.wal_get s.exex_head.block.hash with
      | .error e => .failed e
      | .ok none => .failed (.untraceableHead s.exex_head.block.hash)
      | .ok (some notification) =>
        match notification.committed_chain with
        | none => .panicked
        | some committed_chain =>
          .corrected notification.into_inverted
            ⟨committed_chain.first.number - 1, committed_chain.first.parent_hash⟩

/-- `ExExNotificationsWithHead::check_backfill`: compares the consumer
head number with the node head number; behind starts a backfill job for
the range from the successor of the consumer head number to the node head
number, equal does nothing, ahead is the fatal error.  Returns the job to
install, if any. -/
def check_backfill (env : Env) (s : StreamState) :
    Except StreamError (Option (List (Except StreamError Chain))) :=
  match compare s.exex_head.block.number s.node_head.number with
  | .lt => .ok (some (env.backfill (s.exex_head.block.number + 1) s.node_head.number))
  | .eq => .ok none
  | .gt => .error .exexAheadOfNode

/-- The live phase of `poll_next`: receive the next channel item, or end
the stream when the channel is closed.  Before emitting, the consumer head
is moved to the tip of a committed segment, or to the parent of the first
block of a reverted segment. -/
def poll_live (s : StreamState) : PullResult × StreamState :=
  match s.notifications with
  | [] => (.ended, s)
  | notification :: remaining =>
    let s' : StreamState := { s with notifications := remaining }
    match notification.committed_chain with
    | some committed_chain =>
      (.out notification, { s' with exex_head := ⟨committed_chain.tip.num_hash⟩ })
    | none =>
      match notification.reverted_chain with
      | some reverted_chain =>
        (.out notification,
          { s' with exex_head :=
              ⟨⟨reverted_chain.first.number - 1, reverted_chain.first.parent_hash⟩⟩ })
      | none => (.out notification, s')

/-- The backfilling phase of `poll_next`: with an active job, its next
item is emitted wrapped as a committed notification, or its error is
propagated; an exhausted job is discarded and the pull falls through to
the live phase. -/
def poll_backfill (s : StreamState) : PullResult × StreamState :=
  match s.backfill_job with
  | none => poll_live s
  | some [] => poll_live { s with backfill_job := none }
  | some (item :: remaining) =>
    let s' : StreamState := { s with backfill_job := some remaining }
    match item with
    | .ok chain => (.out (.chainCommitted chain), s')
    | .error e => (.err e, s')

/-- Phases 2 to 4 of `poll_next`: run `check_backfill` while its flag is
pending.  An error returns via `?` before the flag is cleared, so the
flag survives a failed check; on success the flag is cleared, the job (if
any) installed, and the pull proceeds to the backfill and live phases. -/
def poll_check_backfill (env : Env) (s : StreamState) : PullResult × StreamState :=
  if s.pending_check_backfill then
    match check_backfill env s with
    | .error e => (.err e, s)
    | .ok installed =>
      poll_backfill
        { s with
          backfill_job := match installed with
            | some job => some job
            | none => s.backfill_job,
          pending_check_backfill := false }
  else poll_backfill s

/-- `ExExNotificationsWithHead::poll_next`, one pull: while the canonical
check is pending it runs first; a corrective notification is emitted with
the flag left set, an error or panic surfaces immediately, and a canonical
head clears the flag and falls through to the remaining phases in the
same pull. -/
def poll_next (env : Env) (s : StreamState) : PullResult × StreamState :=
  if s.pending_check_canonical then
    match check_canonical env s with
    | .failed e => (.err e, s)
    | .panicked => (.panicked, s)
    | .corrected inverted new_head =>
      (.out inverted, { s with exex_head := ⟨new_head⟩ })
    | .canonical => poll_check_backfill env { s with pending_check_canonical := false }
  else poll_check_backfill env s

/-- Iterated pulls: the list of the first `n` pull results and the state
after them. -/
def pulls (env : Env) : Nat → StreamState → List PullResult × StreamState
  | 0, s => ([], s)
  | n + 1, s =>
    let r := poll_next env s
    let restOf := pulls env n r.2
    (r.1 :: restOf.1, restOf.2)

/-- The download errors of the bodies downloader interface; the payload is
irrelevant to the placeholder and carried as a code. -/
inductive DownloadError where
  | failure (code : Nat)
deriving DecidableEq

/-- The outcome of polling the placeholder downloader: either a ready
value (never produced) or a panic. -/
inductive NoopPoll where
  | readyItem (bodies : List Nat)
  | readyEnded
  | panicked
deriving DecidableEq

/-- `NoopBodiesDownloader::set_download_range`: accepts any inclusive
block range and returns `Ok(())`. -/
def NoopBodiesDownloader.set_download_range (lo hi : Nat) :
    Except DownloadError Unit :=
  let _ := lo
  let _ := hi
  .ok ()

/-- `NoopBodiesDownloader::poll_next`: panics unconditionally. -/
def NoopBodiesDownloader.poll_next : NoopPoll := .panicked

/-! ### Helper lemmas -/

lemma poll_live_pending_canonical (s : StreamState) :
    ((poll_live s).2).pending_check_canonical = s.pending_check_canonical := by
  unfold poll_live
  split
  · rfl
  · split
    · rfl
    · split
      · rfl
      · rfl

lemma poll_backfill_pending_canonical (s : StreamState) :
    ((poll_backfill s).2).pending_check_canonical = s.pending_check_canonical := by
  unfold poll_backfill
  split
  · exact poll_live_pending_canonical s
  · exact poll_live_pending_canonical _
  · split
    · rfl
    · rfl

lemma poll_check_backfill_pending_canonical (env : Env) (s : StreamState) :
    ((poll_check_backfill env s).2).pending_check_canonical = s.pending_check_canonical := by
  unfold poll_check_backfill
  split
  · split
    · rfl
    · exact poll_backfill_pending_canonical _
  · exact poll_backfill_pending_canonical s

lemma canonical_iff (env : Env) (s : StreamState) :
    check_canonical env s = .canonical ↔
      (env.is_known s.exex_head.block.hash = .ok true ∧
        s.exex_head.block.number ≤ s.node_head.number) := by
  unfold check_canonical
  rcases hk : env.is_known s.exex_head.block.hash with e | known
  · simp [hk]
  · simp only [hk]
    cases known with
    | false =>
      simp only [Bool.false_and, Bool.false_eq_true, if_false]
      constructor
      · intro h
        exfalso
        revert h
        split
        · simp
        · simp
        · split <;> simp
      · rintro ⟨h, -⟩
        exact absurd h (by simp)
    | true =>
      constructor
      · intro h
        refine ⟨rfl, ?_⟩
        by_contra hle
        rw [if_neg (by simp [hle])] at h
        revert h
        split
        · simp
        · simp
        · split <;> simp
      · rintro ⟨-, hle⟩
        rw [if_pos (by simp [hle])]

lemma check_canonical_wal (env : Env) (s : StreamState) (known : Bool)
    (hk : env.is_known s.exex_head.block.hash = .ok known)
    (hnc : known = false ∨ s.node_head.number < s.exex_head.block.number) :
    check_canonical env s =
      match env.wal_get s.exex_head.block.hash with
      | .error e => .failed e
      | .ok none => .failed (.untraceableHead s.exex_head.block.hash)
      | .ok (some notification) =>
        match notification.committed_chain with
        | none => .panicked
        | some committed_chain =>
          .corrected notification.into_inverted
            ⟨committed_chain.first.number - 1, committed_chain.first.parent_hash⟩ := by
  unfold check_canonical
  rw [hk]
  rcases hnc with h | h
  · subst h
    simp
  · have hnle : ¬ s.exex_head.block.number ≤ s.node_head.number := by omega
    simp [hnle]

lemma poll_next_of_check (env : Env) (s : StreamState)
    (hpend : s.pending_check_canonical = true) :
    poll_next env s =
      match check_canonical env s with
      | .failed e => (.err e, s)
      | .panicked => (.panicked, s)
      | .corrected inverted new_head =>
        (.out inverted, { s with exex_head := ⟨new_head⟩ })
      | .canonical =>
        poll_check_backfill env { s with pending_check_canonical := false } := by
  unfold poll_next
  rw [if_pos hpend]

/-! ### Claim theorems: the canonical-check phase -/

/-- Claim C5: in the canonical-check phase the consumer head is judged
canonical exactly when the provider reports its hash as known and its
number is at most the node head's number; in that case the pull emits no
corrective item (it proceeds directly to the backfill phases) and the
pending canonical-check flag ends the pull cleared. -/
theorem c5_canonical_judgement (env : Env) (s : StreamState)
    (hpend : s.pending_check_canonical = true) :
    (check_canonical env s = .canonical ↔
      (env.is_known s.exex_head.block.hash = .ok true ∧
        s.exex_head.block.number ≤ s.node_head.number)) ∧
    (check_canonical env s = .canonical →
      poll_next env s =
        poll_check_backfill env { s with pending_check_canonical := false } ∧
      ((poll_next env s).2).pending_check_canonical = false) := by
  refine ⟨canonical_iff env s, fun hcan => ?_⟩
  have h1 : poll_next env s =
      poll_check_backfill env { s with pending_check_canonical := false } := by
    rw [poll_next_of_check env s hpend, hcan]
  refine ⟨h1, ?_⟩
  rw [h1, poll_check_backfill_pending_canonical]

def envC5 : Env := ⟨fun _ => .ok true, fun _ => .ok none, fun _ _ => []⟩

def stC5 : StreamState := ⟨⟨1, 11⟩, ⟨⟨1, 11⟩⟩, true, true, none, []⟩

/-- Witness for C5 at a concrete canonical head. -/
theorem c5_witness :
    (check_canonical envC5 stC5 = .canonical ↔
      (envC5.is_known stC5.exex_head.block.hash = .ok true ∧
        stC5.exex_head.block.number ≤ stC5.node_head.number)) ∧
    (check_canonical envC5 stC5 = .canonical →
      poll_next envC5 stC5 =
        poll_check_backfill envC5 { stC5 with pending_check_canonical := false } ∧
      ((poll_next envC5 stC5).2).pending_check_canonical = false) :=
  c5_canonical_judgement envC5 stC5 rfl

/-- Claim C6: a consumer head that is not canonical and whose hash is
absent from the WAL (the lookup succeeds with no entry) makes the pull
yield the fatal untraceable-head error, not a notification, and leaves
the state unchanged. -/
theorem c6_untraceable (env : Env) (s : StreamState) (known : Bool)
    (hpend : s.pending_check_canonical = true)
    (hk : env.is_known s.exex_head.block.hash = .ok known)
    (hnc : known = false ∨ s.node_head.number < s.exex_head.block.number)
    (hwal : env.wal_get s.exex_head.block.hash = .ok none) :
    poll_next env s = (.err (.untraceableHead s.exex_head.block.hash), s) := by
  have hcc : check_canonical env s =
      .failed (.untraceableHead s.exex_head.block.hash) := by
    rw [check_canonical_wal env s known hk hnc, hwal]
  rw [poll_next_of_check env s hpend, hcc]

def envC6 : Env := ⟨fun _ => .ok false, fun _ => .ok none, fun _ _ => []⟩

def stC6 : StreamState := ⟨⟨1, 11⟩, ⟨⟨2, 22⟩⟩, true, true, none, []⟩

/-- Witness for C6 at a concrete untraceable head. -/
theorem c6_witness :
    poll_next envC6 stC6 = (.err (.untraceableHead stC6.exex_head.block.hash), stC6) :=
  c6_untraceable envC6 stC6 false rfl rfl (Or.inl rfl) rfl

/-- Claim C1: in the canonical-check phase, a consumer head that is not
canonical but is found in the WAL makes the pull emit exactly the
inversion of the logged committed notification, move the consumer head to
the parent position of the segment's first block, and leave the pending
canonical-check flag set, so the next pull re-runs the check against the
corrected head. -/
theorem c1_reorg_correction (env : Env) (s : StreamState) (known : Bool) (c : Chain)
    (hpend : s.pending_check_canonical = true)
    (hk : env.is_known s.exex_head.block.hash = .ok known)
    (hnc : known = false ∨ s.node_head.number < s.exex_head.block.number)
    (hwal : env.wal_get s.exex_head.block.hash = .ok (some (.chainCommitted c))) :
    poll_next env s =
      (.out (ExExNotification.chainCommitted c).into_inverted,
        { s with exex_head := ⟨⟨c.first.number - 1, c.first.parent_hash⟩⟩ }) ∧
    ((poll_next env s).2).pending_check_canonical = true ∧
    ((poll_next env s).2).pending_check_backfill = s.pending_check_backfill := by
  have hcc : check_canonical env s =
      .corrected (ExExNotification.chainCommitted c).into_inverted
        ⟨c.first.number - 1, c.first.parent_hash⟩ := by
    rw [check_canonical_wal env s known hk hnc, hwal]
    rfl
  have h1 : poll_next env s =
      (.out (ExExNotification.chainCommitted c).into_inverted,
        { s with exex_head := ⟨⟨c.first.number - 1, c.first.parent_hash⟩⟩ }) := by
    rw [poll_next_of_check env s hpend, hcc]
  refine ⟨h1, ?_, ?_⟩
  · rw [h1]
    exact hpend
  · rw [h1]

def chC1 : Chain := ⟨⟨3, 33, 22⟩, []⟩

def envC1 : Env :=
  ⟨fun _ => .ok false, fun _ => .ok (some (.chainCommitted chC1)), fun _ _ => []⟩

def stC1 : StreamState := ⟨⟨2, 22⟩, ⟨⟨3, 33⟩⟩, true, true, none, []⟩

/-- Witness for C1 at a concrete non-canonical head found in the WAL. -/
theorem c1_witness :
    poll_next envC1 stC1 =
      (.out (ExExNotification.chainCommitted chC1).into_inverted,
        { stC1 with
          exex_head := ⟨⟨chC1.first.number - 1, chC1.first.parent_hash⟩⟩ }) ∧
    ((poll_next envC1 stC1).2).pending_check_canonical = true ∧
    ((poll_next envC1 stC1).2).pending_check_backfill = stC1.pending_check_backfill :=
  c1_reorg_correction envC1 stC1 false chC1 rfl rfl (Or.inl rfl) rfl

/-- Claim C10: the unwrap on `committed_chain()` in `check_canonical`
makes the correction step total only when the WAL returns commit
transitions: a logged revert transition makes the pull panic, while a
logged commit transition never panics. -/
theorem c10_unwrap_commit_only (env : Env) (s : StreamState) (known : Bool)
    (hpend : s.pending_check_canonical = true)
    (hk : env.is_known s.exex_head.block.hash = .ok known)
    (hnc : known = false ∨ s.node_head.number < s.exex_head.block.number) :
    (∀ c, env.wal_get s.exex_head.block.hash = .ok (some (.chainReverted c)) →
      (poll_next env s).1 = .panicked) ∧
    (∀ c, env.wal_get s.exex_head.block.hash = .ok (some (.chainCommitted c)) →
      (poll_next env s).1 ≠ .panicked) := by
  constructor
  · intro c hwal
    have hcc : check_canonical env s = .panicked := by
      rw [check_canonical_wal env s known hk hnc, hwal]
      rfl
    rw [poll_next_of_check env s hpend, hcc]
  · intro c hwal
    have hcc : check_canonical env s =
        .corrected (ExExNotification.chainCommitted c).into_inverted
          ⟨c.first.number - 1, c.first.parent_hash⟩ := by
      rw [check_canonical_wal env s known hk hnc, hwal]
      rfl
    rw [poll_next_of_check env s hpend, hcc]
    simp

def chC10 : Chain := ⟨⟨3, 33, 22⟩, []⟩

def envC10 : Env :=
  ⟨fun _ => .ok false, fun _ => .ok (some (.chainReverted chC10)), fun _ _ => []⟩

def stC10 : StreamState := ⟨⟨2, 22⟩, ⟨⟨3, 33⟩⟩, true, true, none, []⟩

/-- Witness for C10: a concrete revert entry in the WAL panics the pull. -/
theorem c10_witness : (poll_next envC10 stC10).1 = .panicked :=
  (c10_unwrap_commit_only envC10 stC10 false rfl rfl (Or.inl rfl)).1 chC10 rfl

/-! ### The backfill check and the live phase -/

lemma check_backfill_lt (env : Env) (s : StreamState)
    (hlt : s.exex_head.block.number < s.node_head.number) :
    check_backfill env s =
      .ok (some (env.backfill (s.exex_head.block.number + 1) s.node_head.number)) := by
  unfold check_backfill
  rw [Nat.compare_eq_lt.mpr hlt]

lemma check_backfill_gt (env : Env) (s : StreamState)
    (hgt : s.node_head.number < s.exex_head.block.number) :
    check_backfill env s = .error .exexAheadOfNode := by
  unfold check_backfill
  rw [Nat.compare_eq_gt.mpr hgt]

lemma check_backfill_eq (env : Env) (s : StreamState)
    (heq : s.exex_head.block.number = s.node_head.number) :
    check_backfill env s = .ok none := by
  unfold check_backfill
  rw [Nat.compare_eq_eq.mpr heq]

lemma poll_live_preserves (s : StreamState) :
    ((poll_live s).2).pending_check_canonical = s.pending_check_canonical ∧
    ((poll_live s).2).pending_check_backfill = s.pending_check_backfill ∧
    ((poll_live s).2).backfill_job = s.backfill_job := by
  unfold poll_live
  split
  · exact ⟨rfl, rfl, rfl⟩
  · split
    · exact ⟨rfl, rfl, rfl⟩
    · split
      · exact ⟨rfl, rfl, rfl⟩
      · exact ⟨rfl, rfl, rfl⟩

lemma poll_next_live (env : Env) (s : StreamState)
    (hpc : s.pending_check_canonical = false)
    (hpb : s.pending_check_backfill = false)
    (hjob : s.backfill_job = none) :
    poll_next env s = poll_live s := by
  unfold poll_next
  rw [if_neg (by simp [hpc])]
  unfold poll_check_backfill
  rw [if_neg (by simp [hpb])]
  unfold poll_backfill
  rw [hjob]

/-! ### Claim theorems: the backfill check -/

def envC2 : Env := ⟨fun _ => .ok true, fun _ => .ok none, fun _ _ => []⟩

def stC2 : StreamState := ⟨⟨3, 13⟩, ⟨⟨5, 15⟩⟩, false, true, none, []⟩

/-- Counterexample to C2 as stated: with a confirmed-canonical consumer
head strictly ahead of the node head, the erroring pull leaves the
pending backfill-check flag set (the claim says it is cleared regardless
of outcome), and a second pull yields the same error again (the claim
says exactly one error and no further items). -/
theorem c2_counterexample :
    (poll_next envC2 stC2).1 = .err .exexAheadOfNode ∧
    ((poll_next envC2 stC2).2).pending_check_backfill = true ∧
    (poll_next envC2 ((poll_next envC2 stC2).2)).1 = .err .exexAheadOfNode :=
  ⟨rfl, rfl, rfl⟩

/-- Claim C2 (amended): when the backfill check runs on a consumer head
strictly ahead of the node head, the pull yields the fatal
ahead-of-node error with the state unchanged; the pending backfill-check
flag is cleared only when the check succeeds, so after the error it
remains set and every subsequent pull repeats the check and yields the
same error again. -/
theorem c2_node_behind_consumer (env : Env) (s : StreamState)
    (hpc : s.pending_check_canonical = false)
    (hpb : s.pending_check_backfill = true)
    (hgt : s.node_head.number < s.exex_head.block.number) :
    poll_next env s = (.err .exexAheadOfNode, s) := by
  unfold poll_next
  rw [if_neg (by simp [hpc])]
  unfold poll_check_backfill
  rw [if_pos hpb, check_backfill_gt env s hgt]

/-- Witness for C2 (amended) at a concrete state. -/
theorem c2_witness : poll_next envC2 stC2 = (.err .exexAheadOfNode, stC2) :=
  c2_node_behind_consumer envC2 stC2 rfl rfl (by decide)

/-! ### Claim theorems: the live phase -/

lemma pulls_ended (env : Env) (s : StreamState)
    (hpc : s.pending_check_canonical = false)
    (hpb : s.pending_check_backfill = false)
    (hjob : s.backfill_job = none)
    (hnil : s.notifications = []) :
    ∀ n, pulls env n s = (List.replicate n .ended, s)
  | 0 => rfl
  | n + 1 => by
    have h1 : poll_next env s = (.ended, s) := by
      rw [poll_next_live env s hpc hpb hjob]
      unfold poll_live
      rw [hnil]
    show ((poll_next env s).1 :: (pulls env n (poll_next env s).2).1,
      (pulls env n (poll_next env s).2).2) = _
    rw [h1]
    rw [pulls_ended env s hpc hpb hjob hnil n]
    rfl

/-- Claim C4: in the live phase (both flags clear, no job), an ended
channel ends the stream, every later pull again returning end-of-stream
with the state untouched; a received item is emitted unchanged with the
consumer head already moved: to the segment tip for a commit, to the
parent position of the segment's first block for a revert. -/
theorem c4_live_phase (env : Env) (s : StreamState)
    (hpc : s.pending_check_canonical = false)
    (hpb : s.pending_check_backfill = false)
    (hjob : s.backfill_job = none) :
    (s.notifications = [] →
      ∀ n, pulls env n s = (List.replicate n .ended, s)) ∧
    (∀ nt remaining, s.notifications = nt :: remaining →
      (poll_next env s).1 = .out nt ∧
      ((poll_next env s).2).notifications = remaining ∧
      ((poll_next env s).2).exex_head.block =
        (match nt with
         | .chainCommitted ch => ch.tip.num_hash
         | .chainReverted ch => ⟨ch.first.number - 1, ch.first.parent_hash⟩)) := by
  constructor
  · intro hnil
    exact pulls_ended env s hpc hpb hjob hnil
  · intro nt remaining hcons
    rw [poll_next_live env s hpc hpb hjob]
    unfold poll_live
    rw [hcons]
    cases nt
    · exact ⟨rfl, rfl, rfl⟩
    · exact ⟨rfl, rfl, rfl⟩

def chC4 : Chain := ⟨⟨4, 44, 33⟩, []⟩

def ntC4 : ExExNotification := .chainCommitted chC4

def envC4 : Env := ⟨fun _ => .ok true, fun _ => .ok none, fun _ _ => []⟩

def stC4 : StreamState := ⟨⟨3, 33⟩, ⟨⟨3, 33⟩⟩, false, false, none, [ntC4]⟩

/-- Witness for C4 at a concrete live commit item. -/
theorem c4_witness :
    (poll_next envC4 stC4).1 = .out ntC4 ∧
    ((poll_next envC4 stC4).2).notifications = [] ∧
    ((poll_next envC4 stC4).2).exex_head.block =
      (match ntC4 with
       | .chainCommitted ch => ch.tip.num_hash
       | .chainReverted ch => ⟨ch.first.number - 1, ch.first.parent_hash⟩) :=
  (c4_live_phase envC4 stC4 rfl rfl rfl).2 ntC4 [] rfl

/-! ### Claim theorems: backfilling -/

lemma pulls_backfill_drain (env : Env) :
    ∀ (chains : List Chain) (s : StreamState),
      s.pending_check_canonical = false →
      s.pending_check_backfill = false →
      s.backfill_job = some (chains.map Except.ok) →
      pulls env chains.length s =
        (chains.map (fun c => PullResult.out (.chainCommitted c)),
          { s with backfill_job := some [] })
  | [], s, _, _, hjob => by
    have hs : { s with backfill_job := some [] } = s := by
      cases s
      simp_all
    rw [hs]
    rfl
  | c :: cs, s, hpc, hpb, hjob => by
    have hstep : poll_next env s =
        (.out (.chainCommitted c),
          { s with backfill_job := some (cs.map Except.ok) }) := by
      unfold poll_next
      rw [if_neg (by simp [hpc])]
      unfold poll_check_backfill
      rw [if_neg (by simp [hpb])]
      unfold poll_backfill
      rw [hjob]
      rfl
    have ih := pulls_backfill_drain env cs
      { s with backfill_job := some (cs.map Except.ok) } hpc hpb rfl
    show ((poll_next env s).1 :: (pulls env cs.length (poll_next env s).2).1,
      (pulls env cs.length (poll_next env s).2).2) = _
    rw [hstep]
    simp only [ih]
    rfl

/-- Claim C3: a canonical consumer head strictly behind the node head
makes the first pull install the backfill job for exactly the range from
the successor of the head number to the node head number, and the stream
emits the job's segments wrapped as committed notifications, one per
pull, touching no live-channel item until the job is drained. -/
theorem c3_backfill_range (env : Env) (s : StreamState) (c : Chain) (cs : List Chain)
    (hpc : s.pending_check_canonical = true)
    (hpb : s.pending_check_backfill = true)
    (hk : env.is_known s.exex_head.block.hash = .ok true)
    (hlt : s.exex_head.block.number < s.node_head.number)
    (hbf : env.backfill (s.exex_head.block.number + 1) s.node_head.number =
      (c :: cs).map Except.ok) :
    (pulls env (c :: cs).length s).1 =
      (c :: cs).map (fun ch => PullResult.out (.chainCommitted ch)) ∧
    ((pulls env (c :: cs).length s).2).notifications = s.notifications ∧
    ((pulls env (c :: cs).length s).2).backfill_job = some [] := by
  have hcan : check_canonical env s = .canonical :=
    (canonical_iff env s).mpr ⟨hk, Nat.le_of_lt hlt⟩
  have hstep : poll_next env s =
      (.out (.chainCommitted c),
        { s with
            pending_check_canonical := false
            pending_check_backfill := false
            backfill_job := some (cs.map Except.ok) }) := by
    rw [poll_next_of_check env s hpc, hcan]
    unfold poll_check_backfill
    rw [if_pos hpb,
      check_backfill_lt env { s with pending_check_canonical := false } hlt, hbf]
    rfl
  have hrest := pulls_backfill_drain env cs
    { s with
        pending_check_canonical := false
        pending_check_backfill := false
        backfill_job := some (cs.map Except.ok) } rfl rfl rfl
  have hpulls : pulls env (c :: cs).length s =
      (PullResult.out (.chainCommitted c) ::
        cs.map (fun ch => PullResult.out (.chainCommitted ch)),
        { s with
            pending_check_canonical := false
            pending_check_backfill := false
            backfill_job := some [] }) := by
    show ((poll_next env s).1 :: (pulls env cs.length (poll_next env s).2).1,
      (pulls env cs.length (poll_next env s).2).2) = _
    rw [hstep]
    simp only [hrest]
  rw [hpulls]
  exact ⟨rfl, rfl, rfl⟩

def chC3 : Chain := ⟨⟨1, 21, 20⟩, []⟩

def ntC3 : ExExNotification := .chainCommitted ⟨⟨2, 22, 21⟩, []⟩

def envC3 : Env := ⟨fun _ => .ok true, fun _ => .ok none, fun _ _ => [.ok chC3]⟩

def stC3 : StreamState := ⟨⟨1, 21⟩, ⟨⟨0, 20⟩⟩, true, true, none, [ntC3]⟩

/-- Witness for C3 at a concrete one-segment backfill. -/
theorem c3_witness :
    (pulls envC3 ([chC3] : List Chain).length stC3).1 =
      ([chC3] : List Chain).map (fun ch => PullResult.out (.chainCommitted ch)) ∧
    ((pulls envC3 ([chC3] : List Chain).length stC3).2).notifications =
      stC3.notifications ∧
    ((pulls envC3 ([chC3] : List Chain).length stC3).2).backfill_job = some [] :=
  c3_backfill_range envC3 stC3 chC3 [] rfl rfl rfl (by decide) rfl

/-- Claim C7: a pull that receives an error item from the active backfill
job propagates the error as its result; by the producer contract
(modelled from the spec, section 4.3: an error aborts the remaining
sequence) the job yields nothing afterwards, so the next pull discards
it and no later pull obtains items from it. -/
theorem c7_backfill_error (env : Env) (s : StreamState) (e : StreamError)
    (remaining : List (Except StreamError Chain))
    (hpc : s.pending_check_canonical = false)
    (hpb : s.pending_check_backfill = false)
    (hjob : s.backfill_job = some (.error e :: remaining))
    (habort : remaining = []) :
    poll_next env s = (.err e, { s with backfill_job := some [] }) ∧
    poll_next env { s with backfill_job := some [] } =
      poll_live { s with backfill_job := none } ∧
    ((poll_next env { s with backfill_job := some [] }).2).backfill_job = none := by
  subst habort
  have h1 : poll_next env s = (.err e, { s with backfill_job := some [] }) := by
    unfold poll_next
    rw [if_neg (by simp [hpc])]
    unfold poll_check_backfill
    rw [if_neg (by simp [hpb])]
    unfold poll_backfill
    rw [hjob]
  have h2 : poll_next env { s with backfill_job := some [] } =
      poll_live { s with backfill_job := none } := by
    unfold poll_next
    rw [if_neg (by simp [hpc])]
    unfold poll_check_backfill
    rw [if_neg (by simp [hpb])]
    rfl
  refine ⟨h1, h2, ?_⟩
  rw [h2, (poll_live_preserves { s with backfill_job := none }).2.2]

def envC7 : Env := ⟨fun _ => .ok true, fun _ => .ok none, fun _ _ => []⟩

def stC7 : StreamState :=
  ⟨⟨3, 33⟩, ⟨⟨2, 22⟩⟩, false, false, some [.error (.backfillFailure 7)], []⟩

/-- Witness for C7 at a concrete failing backfill item. -/
theorem c7_witness :
    poll_next envC7 stC7 =
      (.err (.backfillFailure 7), { stC7 with backfill_job := some [] }) ∧
    poll_next envC7 { stC7 with backfill_job := some [] } =
      poll_live { stC7 with backfill_job := none } ∧
    ((poll_next envC7 { stC7 with backfill_job := some [] }).2).backfill_job = none :=
  c7_backfill_error envC7 stC7 (.backfillFailure 7) [] rfl rfl rfl rfl

/-! ### Claim theorems: the live phase is absorbing -/

lemma pulls_live_invariant (env : Env) :
    ∀ (n : Nat) (s : StreamState),
      s.pending_check_canonical = false →
      s.pending_check_backfill = false →
      s.backfill_job = none →
      ((pulls env n s).2).pending_check_canonical = false ∧
      ((pulls env n s).2).pending_check_backfill = false ∧
      ((pulls env n s).2).backfill_job = none
  | 0, _, hpc, hpb, hjob => ⟨hpc, hpb, hjob⟩
  | n + 1, s, hpc, hpb, hjob => by
    have hl : poll_next env s = poll_live s := poll_next_live env s hpc hpb hjob
    have hp := poll_live_preserves s
    have hnext := pulls_live_invariant env n (poll_next env s).2
      (by rw [hl, hp.1]; exact hpc)
      (by rw [hl, hp.2.1]; exact hpb)
      (by rw [hl, hp.2.2]; exact hjob)
    exact hnext

/-- Claim C8: once both phase flags are clear and no backfill job remains,
every subsequent pull preserves that configuration, and each such pull is
exactly a poll of the live channel. -/
theorem c8_live_lock_in (env : Env) (s : StreamState)
    (hpc : s.pending_check_canonical = false)
    (hpb : s.pending_check_backfill = false)
    (hjob : s.backfill_job = none) :
    ∀ n,
      ((pulls env n s).2).pending_check_canonical = false ∧
      ((pulls env n s).2).pending_check_backfill = false ∧
      ((pulls env n s).2).backfill_job = none ∧
      poll_next env ((pulls env n s).2) = poll_live ((pulls env n s).2) := by
  intro n
  obtain ⟨h1, h2, h3⟩ := pulls_live_invariant env n s hpc hpb hjob
  exact ⟨h1, h2, h3, poll_next_live env _ h1 h2 h3⟩

def envC8 : Env := ⟨fun _ => .ok true, fun _ => .ok none, fun _ _ => []⟩

def stC8 : StreamState :=
  ⟨⟨3, 33⟩, ⟨⟨3, 33⟩⟩, false, false, none, [ntC4, ntC4]⟩

/-- Witness for C8 at a concrete live-phase state after two pulls. -/
theorem c8_witness :
    ((pulls envC8 2 stC8).2).pending_check_canonical = false ∧
    ((pulls envC8 2 stC8).2).pending_check_backfill = false ∧
    ((pulls envC8 2 stC8).2).backfill_job = none ∧
    poll_next envC8 ((pulls envC8 2 stC8).2) = poll_live ((pulls envC8 2 stC8).2) :=
  c8_live_lock_in envC8 stC8 rfl rfl rfl 2

/-! ### Claim theorems: the placeholder bodies downloader -/

/-- Counterexample to C9 as stated: setting a download range on the
placeholder downloader succeeds silently with `Ok(())` at the concrete
range 0 to 5 rather than failing loudly. -/
theorem c9_counterexample :
    NoopBodiesDownloader.set_download_range 0 5 = .ok () := rfl

/-- Claim C9 (amended): polling the placeholder bodies downloader fails
loudly and immediately (it panics unconditionally), while setting a
download range silently succeeds with `Ok(())` for every range. -/
theorem c9_noop_behaviour :
    NoopBodiesDownloader.poll_next = .panicked ∧
    ∀ lo hi, NoopBodiesDownloader.set_download_range lo hi = .ok () :=
  ⟨rfl, fun _ _ => rfl⟩
